import Mathlib

/-!
Verification of the doorstep_webscraper crawler core.

This file gives a shallow embedding, in Lean 4, of the decision logic of the
repository `simonsalamian/doorstep_webscraper`:

* `utils.dict_subset` (safe nested lookup over parsed JSON),
* `WebScraper.divide_map_tiles` and the tile accept/subdivide decision of
  `WebScraper.iterateMapTiles`,
* `SessionHandler.makeRequest` (retry/backoff state machine),
* `SessionHandler.extractPricingToFile` (price-ledger dedup rule),
* `WebScraper.getTotalCount` (total-count extraction),
* `WebScraper._processListings` (per-item reconciliation for the explore,
  stays and pricing passes).

Parsed JSON documents are modelled by the inductive type `J`; Python `None`
that flows through the same variables is modelled by `J.null` where it can
only have come from `json` content or from a `makeRequest` that returned
`None`.  JSON numbers are modelled as integers: every numeric field the
embedded logic inspects (total counts, ids, zoom levels) is integral in the
API responses.  Map-tile coordinates are Python floats (IEEE-754 binary64);
each is modelled by its exact rational value, and every arithmetic operation
on them is followed by correct rounding to the nearest double
(`roundDouble`).  Network calls and the file store are oracles passed in as
functions; writes are recorded as effects.
-/

/-- A parsed JSON value (the result of `json.loads`). -/
inductive J where
  | null : J
  | bool (b : Bool) : J
  | num (n : Int) : J
  | str (s : String) : J
  | arr (xs : List J) : J
  | obj (kvs : List (String × J)) : J

mutual

/-- Structural equality of JSON values, the model of Python `==` on the
values that flow through the id trackers (strings and numbers in practice). -/
def J.beq : J → J → Bool
  | .null, .null => true
  | .bool a, .bool b => a = b
  | .num a, .num b => a = b
  | .str a, .str b => a = b
  | .arr xs, .arr ys => J.beqL xs ys
  | .obj xs, .obj ys => J.beqO xs ys
  | _, _ => false

def J.beqL : List J → List J → Bool
  | [], [] => true
  | x :: xs, y :: ys => J.beq x y && J.beqL xs ys
  | _, _ => false

def J.beqO : List (String × J) → List (String × J) → Bool
  | [], [] => true
  | (k1, v1) :: xs, (k2, v2) :: ys => k1 = k2 && J.beq v1 v2 && J.beqO xs ys
  | _, _ => false

end

instance : BEq J := ⟨J.beq⟩

/-- A subscript as passed to `dict_subset`: a string key or an integer index. -/
inductive PyKey where
  | s (k : String) : PyKey
  | i (n : Int) : PyKey
deriving DecidableEq

/-- The Python exception classes the embedded code can raise or catch. -/
inductive PyErr where
  | keyError | indexError | typeError | attributeError
  | nameError | valueError | unicodeError
deriving DecidableEq

/-- Python truthiness of a JSON-shaped value (`bool(x)`). -/
def J.truthy : J → Bool
  | .null => false
  | .bool b => b
  | .num n => n ≠ 0
  | .str s => s ≠ ""
  | .arr xs => ¬ xs.isEmpty
  | .obj kvs => ¬ kvs.isEmpty

/-- Truthiness of a value that may be Python `None` (absent). -/
def truthyO : Option J → Bool
  | none => false
  | some v => v.truthy

/-- First-match association-list lookup, the model of Python `dict` lookup
(JSON objects produced by `json.loads` are duplicate-free). -/
def lookupKvs : List (String × J) → String → Option J
  | [], _ => none
  | p :: rest, k => if p.1 = k then some p.2 else lookupKvs rest k

/-- Python's `result[key]` for the value universe reachable inside
`dict_subset`: dict lookup (`KeyError` when absent), list and string indexing
with negative-index wraparound (`IndexError` out of range, `TypeError` for a
string subscript), and `TypeError` on non-subscriptable values. -/
def pyGetItemExc : J → PyKey → Except PyErr J
  | .obj kvs, .s k =>
      match lookupKvs kvs k with
      | some v => .ok v
      | none => .error .keyError
  | .obj _, .i _ => .error .keyError
  | .arr xs, .i n =>
      if 0 ≤ n then
        if h : n.toNat < xs.length then .ok (xs.get ⟨n.toNat, h⟩) else .error .indexError
      else
        if h : ((xs.length : Int) + n).toNat < xs.length ∧ 0 ≤ (xs.length : Int) + n then
          .ok (xs.get ⟨((xs.length : Int) + n).toNat, h.1⟩)
        else .error .indexError
  | .arr _, .s _ => .error .typeError
  | .str s, .i n =>
      let cs := s.toList
      if 0 ≤ n then
        if h : n.toNat < cs.length then .ok (.str (String.mk [cs.get ⟨n.toNat, h⟩])) else .error .indexError
      else
        if h : ((cs.length : Int) + n).toNat < cs.length ∧ 0 ≤ (cs.length : Int) + n then
          .ok (.str (String.mk [cs.get ⟨((cs.length : Int) + n).toNat, h.1⟩]))
        else .error .indexError
  | .str _, .s _ => .error .typeError
  | .null, _ => .error .typeError
  | .bool _, _ => .error .typeError
  | .num _, _ => .error .typeError

/-- The `try: result = result[key] / except (KeyError, IndexError, TypeError)`
loop of `utils.dict_subset`, keeping an uncaught exception explicit: an error
outside the caught triple would propagate to the caller. -/
def dictSubsetExc (v : J) : List PyKey → Except PyErr (Option J)
  | [] => .ok (some v)
  | k :: ks =>
      match pyGetItemExc v k with
      | .ok w => dictSubsetExc w ks
      | .error e =>
          if e = .keyError ∨ e = .indexError ∨ e = .typeError then .ok none
          else .error e

/-- `utils.dict_subset`: returns the nested element, or `None` when a lookup
step fails with one of the caught exception classes. -/
def dict_subset (v : J) (ks : List PyKey) : Option J :=
  match dictSubsetExc v ks with
  | .ok r => r
  | .error _ => none

theorem pyGetItemExc_error_caught (v : J) (k : PyKey) (e : PyErr)
    (h : pyGetItemExc v k = .error e) :
    e = .keyError ∨ e = .indexError ∨ e = .typeError := by
  cases v with
  | obj kvs =>
      cases k with
      | s s' =>
          simp only [pyGetItemExc] at h
          cases hl : lookupKvs kvs s' with
          | some w => rw [hl] at h; simp at h
          | none => rw [hl] at h; simp at h; simp [← h]
      | i n => simp only [pyGetItemExc] at h; simp at h; simp [← h]
  | arr xs =>
      cases k with
      | s s' => simp only [pyGetItemExc] at h; simp at h; simp [← h]
      | i n =>
          simp only [pyGetItemExc] at h
          split at h <;> split at h <;> simp_all
  | str s' =>
      cases k with
      | s k' => simp only [pyGetItemExc] at h; simp at h; simp [← h]
      | i n =>
          simp only [pyGetItemExc] at h
          split at h <;> split at h <;> simp_all
  | null => simp only [pyGetItemExc] at h; simp at h; simp [← h]
  | bool b => simp only [pyGetItemExc] at h; simp at h; simp [← h]
  | num n => simp only [pyGetItemExc] at h; simp at h; simp [← h]

theorem dictSubsetExc_no_error (v : J) (ks : List PyKey) :
    ∀ e, dictSubsetExc v ks ≠ .error e := by
  induction ks generalizing v with
  | nil => intro e; simp [dictSubsetExc]
  | cons k ks ih =>
      intro e
      simp only [dictSubsetExc]
      cases hg : pyGetItemExc v k with
      | ok w => exact ih w e
      | error er =>
          have := pyGetItemExc_error_caught v k er hg
          rcases this with h | h | h <;> simp [h]

/-- C10: `dict_subset` is total: with no keys it returns the value itself; a
step that succeeds recurses into the element; a step that raises returns
`None`; and every exception a lookup step can raise is one of the caught
classes, so no exception ever propagates out of `dict_subset`. -/
theorem dict_subset_total (v : J) (keys : List PyKey) :
    (∀ e, dictSubsetExc v keys ≠ Except.error e)
    ∧ dict_subset v [] = some v
    ∧ (∀ k ks w, pyGetItemExc v k = .ok w → dict_subset v (k :: ks) = dict_subset w ks)
    ∧ (∀ k ks e, pyGetItemExc v k = .error e → dict_subset v (k :: ks) = none) := by
  refine ⟨dictSubsetExc_no_error v keys, rfl, ?_, ?_⟩
  · intro k ks w h
    simp [dict_subset, dictSubsetExc, h]
  · intro k ks e h
    rcases pyGetItemExc_error_caught v k e h with h' | h' | h' <;>
      simp [dict_subset, dictSubsetExc, h, h']

theorem dict_subset_total_witness :
    pyGetItemExc (J.obj [("one", J.arr [J.num 7])]) (PyKey.s "one") = Except.ok (J.arr [J.num 7])
    ∧ dict_subset (J.obj [("one", J.arr [J.num 7])]) [PyKey.s "one", PyKey.i 0]
        = dict_subset (J.arr [J.num 7]) [PyKey.i 0]
    ∧ pyGetItemExc (J.num 3) (PyKey.s "x") = Except.error PyErr.typeError
    ∧ dict_subset (J.num 3) [PyKey.s "x"] = none :=
  ⟨rfl,
   (dict_subset_total (J.obj [("one", J.arr [J.num 7])]) []).2.2.1 (PyKey.s "one") [PyKey.i 0] _ rfl,
   rfl,
   (dict_subset_total (J.num 3) []).2.2.2 (PyKey.s "x") [] PyErr.typeError rfl⟩

/-! ## IEEE-754 binary64 arithmetic -/

/-- Round a rational to the nearest integer, ties to even. -/
def roundHalfEven (q : ℚ) : ℤ :=
  let f := ⌊q⌋
  let r := q - f
  if r < 1 / 2 then f
  else if 1 / 2 < r then f + 1
  else if f % 2 = 0 then f else f + 1

/-- The binade exponent of a nonzero rational: the greatest e with
2^e <= |q|, computed from the bit lengths of numerator and denominator. -/
def binade (q : ℚ) : ℤ :=
  let a := q.num.natAbs
  let b := q.den
  let c : ℤ := (Nat.log2 a : ℤ) - (Nat.log2 b : ℤ)
  if (2 : ℚ) ^ (c + 1) ≤ |q| then c + 1
  else if (2 : ℚ) ^ c ≤ |q| then c
  else c - 1

/-- Round an exact rational value to the nearest IEEE-754 binary64 double
(round to nearest, ties to even; 53-bit precision, subnormals below
2^-1022).  Overflow to infinity is not modelled: the embedded coordinate
arithmetic stays far inside the finite double range. -/
def roundDouble (q : ℚ) : ℚ :=
  if q = 0 then 0
  else
    let e : ℤ := max (binade q - 52) (-1074)
    (roundHalfEven (q / (2 : ℚ) ^ e) : ℚ) * (2 : ℚ) ^ e

/-- Double addition, subtraction and division: exact, then rounded. -/
def fadd (x y : ℚ) : ℚ := roundDouble (x + y)

def fsub (x y : ℚ) : ℚ := roundDouble (x - y)

def fdiv (x y : ℚ) : ℚ := roundDouble (x / y)

/-! ## Map tiles: `divide_map_tiles` and the accept/subdivide decision -/

/-- A `coords` dict of `iterateMapTiles`: one rectangular map query region.
The coordinates are Python floats (IEEE-754 doubles); each is modelled by
its exact rational value, and arithmetic on them by `roundDouble`.  The
zoom level is an integer. -/
structure MapTile where
  neLat : ℚ
  neLng : ℚ
  swLat : ℚ
  swLng : ℚ
  zoom : ℤ
deriving DecidableEq

/-- `WebScraper.divide_map_tiles`: subdivide a map tile into four smaller
tiles by halving its latitude and longitude bounds; zoom incremented by 1.
The halving and the corner offsets are IEEE-754 double operations. -/
def divide_map_tiles (coords : MapTile) : List MapTile :=
  let halfLat := fdiv (fsub coords.neLat coords.swLat) 2
  let halfLng := fdiv (fsub coords.neLng coords.swLng) 2
  let zoom := coords.zoom + 1
  [ ⟨coords.neLat, coords.neLng, fadd coords.swLat halfLat, fadd coords.swLng halfLng, zoom⟩,
    ⟨fsub coords.neLat halfLat, coords.neLng, coords.swLat, fadd coords.swLng halfLng, zoom⟩,
    ⟨coords.neLat, fsub coords.neLng halfLng, fadd coords.swLat halfLat, coords.swLng, zoom⟩,
    ⟨fsub coords.neLat halfLat, fsub coords.neLng halfLng, coords.swLat, coords.swLng, zoom⟩ ]

/-- Outcome of the per-tile decision in `WebScraper.iterateMapTiles`. -/
inductive TileDecision where
  | subdivide (children : List MapTile) : TileDecision
  | accept : TileDecision
deriving DecidableEq

/-- The decision step of `iterateMapTiles`: `if total >= 240 and
coords['zoom'] < 23`, extend the work list with the four children and do not
page the tile; otherwise the tile is handed to `_processTile` (paged). -/
def iterateMapTilesDecision (coords : MapTile) (total : ℤ) : TileDecision :=
  if 240 ≤ total ∧ coords.zoom < 23 then .subdivide (divide_map_tiles coords)
  else .accept

/-- C1: the tile-decision step subdivides (enqueuing the four children and
not paging the tile) exactly when totalCount >= 240 and zoom < 23; in every
other case it accepts, and in particular any tile at zoom >= 23 is accepted
regardless of the reported total. -/
theorem iterateMapTiles_decision_spec (coords : MapTile) (total : ℤ) :
    (iterateMapTilesDecision coords total = .subdivide (divide_map_tiles coords)
        ↔ (240 ≤ total ∧ coords.zoom < 23))
    ∧ (divide_map_tiles coords).length = 4
    ∧ (23 ≤ coords.zoom → iterateMapTilesDecision coords total = .accept)
    ∧ (¬ (240 ≤ total ∧ coords.zoom < 23) → iterateMapTilesDecision coords total = .accept) := by
  by_cases h : 240 ≤ total ∧ coords.zoom < 23
  · refine ⟨⟨fun _ => h, fun _ => by simp [iterateMapTilesDecision, h]⟩, rfl, ?_, fun hn => absurd h hn⟩
    intro h23
    exact absurd h23 (by omega)
  · refine ⟨⟨?_, fun hc => absurd hc h⟩, rfl, fun _ => by simp [iterateMapTilesDecision, h],
      fun _ => by simp [iterateMapTilesDecision, h]⟩
    intro hs
    rw [iterateMapTilesDecision, if_neg h] at hs
    exact absurd hs (by simp)

theorem iterateMapTiles_decision_spec_witness :
    (23 : ℤ) ≤ (MapTile.mk 1 1 0 0 23).zoom
    ∧ iterateMapTilesDecision (MapTile.mk 1 1 0 0 23) 1000 = .accept :=
  ⟨by norm_num, (iterateMapTiles_decision_spec (MapTile.mk 1 1 0 0 23) 1000).2.2.1 (by norm_num)⟩

/-- A point (latitude, longitude) lies in a tile's closed bounding box. -/
def inTile (t : MapTile) (la lo : ℚ) : Prop :=
  t.swLat ≤ la ∧ la ≤ t.neLat ∧ t.swLng ≤ lo ∧ lo ≤ t.neLng

/-- A point lies strictly inside a tile's bounding box. -/
def strictlyInTile (t : MapTile) (la lo : ℚ) : Prop :=
  t.swLat < la ∧ la < t.neLat ∧ t.swLng < lo ∧ lo < t.neLng

/-- C3 (amended): for a tile with nonnegative spans WHOSE FOUR MIDPOINT
COMPUTATIONS INCUR NO ROUNDING ERROR (hypotheses e1-e4; in particular under
the spec's idealized real-number reading), `divide_map_tiles` returns
exactly four children, each with half the parent's latitude and longitude
span and zoom equal to the parent's plus one; their union covers exactly
the parent's bounding box (no gaps), and no point is strictly inside two
distinct children (no interior overlap).  Without the exactness hypotheses
the property fails in double arithmetic. -/
theorem divide_map_tiles_partition (c : MapTile)
    (h1 : c.swLat ≤ c.neLat) (h2 : c.swLng ≤ c.neLng)
    (e1 : fadd c.swLat (fdiv (fsub c.neLat c.swLat) 2) = c.swLat + (c.neLat - c.swLat) / 2)
    (e2 : fsub c.neLat (fdiv (fsub c.neLat c.swLat) 2) = c.neLat - (c.neLat - c.swLat) / 2)
    (e3 : fadd c.swLng (fdiv (fsub c.neLng c.swLng) 2) = c.swLng + (c.neLng - c.swLng) / 2)
    (e4 : fsub c.neLng (fdiv (fsub c.neLng c.swLng) 2) = c.neLng - (c.neLng - c.swLng) / 2) :
    (divide_map_tiles c).length = 4
    ∧ (∀ t ∈ divide_map_tiles c, t.zoom = c.zoom + 1
        ∧ t.neLat - t.swLat = (c.neLat - c.swLat) / 2
        ∧ t.neLng - t.swLng = (c.neLng - c.swLng) / 2)
    ∧ (∀ la lo : ℚ, inTile c la lo ↔ ∃ t ∈ divide_map_tiles c, inTile t la lo)
    ∧ (∀ t₁ ∈ divide_map_tiles c, ∀ t₂ ∈ divide_map_tiles c, t₁ ≠ t₂ →
        ∀ la lo : ℚ, ¬ (strictlyInTile t₁ la lo ∧ strictlyInTile t₂ la lo)) := by
  have hd : divide_map_tiles c =
      [⟨c.neLat, c.neLng, c.swLat + (c.neLat - c.swLat) / 2,
        c.swLng + (c.neLng - c.swLng) / 2, c.zoom + 1⟩,
       ⟨c.neLat - (c.neLat - c.swLat) / 2, c.neLng, c.swLat,
        c.swLng + (c.neLng - c.swLng) / 2, c.zoom + 1⟩,
       ⟨c.neLat, c.neLng - (c.neLng - c.swLng) / 2,
        c.swLat + (c.neLat - c.swLat) / 2, c.swLng, c.zoom + 1⟩,
       ⟨c.neLat - (c.neLat - c.swLat) / 2, c.neLng - (c.neLng - c.swLng) / 2,
        c.swLat, c.swLng, c.zoom + 1⟩] := by
    simp only [divide_map_tiles]
    rw [e1, e2, e3, e4]
  rw [hd]
  refine ⟨rfl, ?_, ?_, ?_⟩
  · intro t ht
    simp only [List.mem_cons, List.not_mem_nil, or_false] at ht
    rcases ht with h | h | h | h <;> subst h <;> exact ⟨rfl, by ring, by ring⟩
  · intro la lo
    constructor
    · rintro ⟨ha1, ha2, ha3, ha4⟩
      by_cases hla : la ≤ c.swLat + (c.neLat - c.swLat) / 2 <;>
        by_cases hlo : lo ≤ c.swLng + (c.neLng - c.swLng) / 2
      · exact ⟨⟨c.neLat - (c.neLat - c.swLat) / 2, c.neLng - (c.neLng - c.swLng) / 2,
          c.swLat, c.swLng, c.zoom + 1⟩, by simp,
          ha1, by linarith, ha3, by linarith⟩
      · exact ⟨⟨c.neLat - (c.neLat - c.swLat) / 2, c.neLng,
          c.swLat, c.swLng + (c.neLng - c.swLng) / 2, c.zoom + 1⟩, by simp,
          ha1, by linarith, by linarith, ha4⟩
      · exact ⟨⟨c.neLat, c.neLng - (c.neLng - c.swLng) / 2,
          c.swLat + (c.neLat - c.swLat) / 2, c.swLng, c.zoom + 1⟩, by simp,
          by linarith, ha2, ha3, by linarith⟩
      · exact ⟨⟨c.neLat, c.neLng,
          c.swLat + (c.neLat - c.swLat) / 2, c.swLng + (c.neLng - c.swLng) / 2, c.zoom + 1⟩,
          by simp, by linarith, ha2, by linarith, ha4⟩
    · rintro ⟨t, ht, hin⟩
      simp only [List.mem_cons, List.not_mem_nil, or_false] at ht
      obtain ⟨hi1, hi2, hi3, hi4⟩ := hin
      rcases ht with h | h | h | h <;> subst h <;>
        simp only at hi1 hi2 hi3 hi4 <;>
        exact ⟨by linarith, by linarith, by linarith, by linarith⟩
  · intro t₁ ht₁ t₂ ht₂ hne la lo hboth
    obtain ⟨hs1, hs2⟩ := hboth
    simp only [List.mem_cons, List.not_mem_nil, or_false] at ht₁ ht₂
    obtain ⟨ha1, ha2, ha3, ha4⟩ := hs1
    obtain ⟨hb1, hb2, hb3, hb4⟩ := hs2
    rcases ht₁ with h | h | h | h <;> subst h <;> rcases ht₂ with h | h | h | h <;> subst h <;>
      simp only at ha1 ha2 ha3 ha4 hb1 hb2 hb3 hb4 <;>
      first
        | exact hne rfl
        | linarith

theorem divide_map_tiles_partition_witness :
    (MapTile.mk 2 2 0 0 5).swLat ≤ (MapTile.mk 2 2 0 0 5).neLat
    ∧ (MapTile.mk 2 2 0 0 5).swLng ≤ (MapTile.mk 2 2 0 0 5).neLng
    ∧ fadd 0 (fdiv (fsub 2 0) 2) = 0 + ((2 : ℚ) - 0) / 2
    ∧ fsub 2 (fdiv (fsub 2 0) 2) = 2 - ((2 : ℚ) - 0) / 2
    ∧ ((divide_map_tiles (MapTile.mk 2 2 0 0 5)).length = 4
        ∧ (∀ t ∈ divide_map_tiles (MapTile.mk 2 2 0 0 5), t.zoom = (MapTile.mk 2 2 0 0 5).zoom + 1
            ∧ t.neLat - t.swLat = ((MapTile.mk 2 2 0 0 5).neLat - (MapTile.mk 2 2 0 0 5).swLat) / 2
            ∧ t.neLng - t.swLng = ((MapTile.mk 2 2 0 0 5).neLng - (MapTile.mk 2 2 0 0 5).swLng) / 2)
        ∧ (∀ la lo : ℚ, inTile (MapTile.mk 2 2 0 0 5) la lo
            ↔ ∃ t ∈ divide_map_tiles (MapTile.mk 2 2 0 0 5), inTile t la lo)
        ∧ (∀ t₁ ∈ divide_map_tiles (MapTile.mk 2 2 0 0 5),
            ∀ t₂ ∈ divide_map_tiles (MapTile.mk 2 2 0 0 5), t₁ ≠ t₂ →
            ∀ la lo : ℚ, ¬ (strictlyInTile t₁ la lo ∧ strictlyInTile t₂ la lo))) := by
  have w1 : fsub (2 : ℚ) 0 = 2 := by
    norm_num [fsub, roundDouble, binade, roundHalfEven, Nat.log2, abs_of_pos, abs_of_neg,
      sup_of_le_left, Int.fract]
  have w2 : fdiv (2 : ℚ) 2 = 1 := by
    norm_num [fdiv, roundDouble, binade, roundHalfEven, Nat.log2, abs_of_pos, abs_of_neg,
      sup_of_le_left, Int.fract]
  have w3 : fadd (0 : ℚ) 1 = 1 := by
    norm_num [fadd, roundDouble, binade, roundHalfEven, Nat.log2, abs_of_pos, abs_of_neg,
      sup_of_le_left, Int.fract]
  have w4 : fsub (2 : ℚ) 1 = 1 := by
    norm_num [fsub, roundDouble, binade, roundHalfEven, Nat.log2, abs_of_pos, abs_of_neg,
      sup_of_le_left, Int.fract]
  have he1 : fadd 0 (fdiv (fsub 2 0) 2) = 0 + ((2 : ℚ) - 0) / 2 := by
    rw [w1, w2, w3]; norm_num
  have he2 : fsub 2 (fdiv (fsub 2 0) 2) = 2 - ((2 : ℚ) - 0) / 2 := by
    rw [w1, w2, w4]; norm_num
  exact ⟨by norm_num, by norm_num, he1, he2,
    divide_map_tiles_partition (MapTile.mk 2 2 0 0 5) (by norm_num) (by norm_num) he1 he2 he1 he2⟩

/-- The tile with swLat = -66.93575897638785 and neLat = 36.385928446712036
(exact double values); halving these doubles leaves a latitude GAP between
the two computed midpoints. -/
def tileGapW : MapTile :=
  ⟨(5120864181066933 : ℚ) / 140737488355328, 1, (-4710185299747213 : ℚ) / 70368744177664, 0, 5⟩

/-- The tile with swLat = 0.10000000000000007 and neLat = 0.3170917031018731
(exact double values); the two computed midpoints land in the WRONG order,
so two children OVERLAP in their interiors. -/
def tileOverlapW : MapTile :=
  ⟨(5712216303727487 : ℚ) / 18014398509481984, 1, (7205759403792799 : ℚ) / 72057594037927936, 0, 5⟩

/-- The tile with swLat = 31.401912550277387 and neLat = 35.59041790104721
(exact double values); the midpoints agree but a child's span is NOT half
the parent's. -/
def tileSpanW : MapTile :=
  ⟨(5008906024909889 : ℚ) / 140737488355328, 1, (1104856575469923 : ℚ) / 35184372088832, 0, 5⟩

/-- C3 as stated is false on the code: `divide_map_tiles` computes with
IEEE-754 doubles, so for representable inputs satisfying the claim's
hypotheses the four children can leave a gap (a point of the parent box in
no child), can overlap in their interiors, and can have a latitude span
different from half the parent's. -/
theorem divide_map_tiles_float_counterexample :
    (tileGapW.swLat ≤ tileGapW.neLat ∧ tileGapW.swLng ≤ tileGapW.neLng
      ∧ inTile tileGapW ((-4299506418427493 : ℚ) / 281474976710656) (1 / 2)
      ∧ ¬ ∃ t ∈ divide_map_tiles tileGapW,
          inTile t ((-4299506418427493 : ℚ) / 281474976710656) (1 / 2))
    ∧ (tileOverlapW.swLat ≤ tileOverlapW.neLat ∧ tileOverlapW.swLng ≤ tileOverlapW.neLng
      ∧ ∃ t₁ ∈ divide_map_tiles tileOverlapW, ∃ t₂ ∈ divide_map_tiles tileOverlapW,
          t₁ ≠ t₂ ∧ strictlyInTile t₁ ((15027312309351373 : ℚ) / 72057594037927936) (3 / 4)
          ∧ strictlyInTile t₂ ((15027312309351373 : ℚ) / 72057594037927936) (3 / 4))
    ∧ (tileSpanW.swLat ≤ tileSpanW.neLat ∧ tileSpanW.swLng ≤ tileSpanW.neLng
      ∧ ∃ t ∈ divide_map_tiles tileSpanW,
          t.neLat - t.swLat ≠ (tileSpanW.neLat - tileSpanW.swLat) / 2) := by
  have hdL : fsub (1 : ℚ) 0 = 1 := by
    norm_num [fsub, roundDouble, binade, roundHalfEven, Nat.log2, abs_of_pos, abs_of_neg,
      sup_of_le_left, Int.fract]
  have hhL : fdiv (1 : ℚ) 2 = 1 / 2 := by
    norm_num [fdiv, roundDouble, binade, roundHalfEven, Nat.log2, abs_of_pos, abs_of_neg,
      sup_of_le_left, Int.fract]
  have hm1L : fadd (0 : ℚ) (1 / 2) = 1 / 2 := by
    norm_num [fadd, roundDouble, binade, roundHalfEven, Nat.log2, abs_of_pos, abs_of_neg,
      sup_of_le_left, Int.fract]
  have hm2L : fsub (1 : ℚ) (1 / 2) = 1 / 2 := by
    norm_num [fsub, roundDouble, binade, roundHalfEven, Nat.log2, abs_of_pos, abs_of_neg,
      sup_of_le_left, Int.fract]
  have hdA : fsub ((5120864181066933 : ℚ) / 140737488355328)
      ((-4710185299747213 : ℚ) / 70368744177664) = (908827173785085 : ℚ) / 8796093022208 := by
    norm_num [fsub, roundDouble, binade, roundHalfEven, Nat.log2, abs_of_pos, abs_of_neg,
      sup_of_le_left, Int.fract]
  have hhA : fdiv ((908827173785085 : ℚ) / 8796093022208) 2
      = (908827173785085 : ℚ) / 17592186044416 := by
    norm_num [fdiv, roundDouble, binade, roundHalfEven, Nat.log2, abs_of_pos, abs_of_neg,
      sup_of_le_left, Int.fract]
  have hm1A : fadd ((-4710185299747213 : ℚ) / 70368744177664)
      ((908827173785085 : ℚ) / 17592186044416) = (-1074876604606873 : ℚ) / 70368744177664 := by
    norm_num [fadd, roundDouble, binade, roundHalfEven, Nat.log2, abs_of_pos, abs_of_neg,
      sup_of_le_left, Int.fract]
  have hm2A : fsub ((5120864181066933 : ℚ) / 140737488355328)
      ((908827173785085 : ℚ) / 17592186044416) = (-2149753209213747 : ℚ) / 140737488355328 := by
    norm_num [fsub, roundDouble, binade, roundHalfEven, Nat.log2, abs_of_pos, abs_of_neg,
      sup_of_le_left, Int.fract]
  have hlistA : divide_map_tiles tileGapW =
      [⟨(5120864181066933 : ℚ) / 140737488355328, 1,
        (-1074876604606873 : ℚ) / 70368744177664, 1 / 2, 6⟩,
       ⟨(-2149753209213747 : ℚ) / 140737488355328, 1,
        (-4710185299747213 : ℚ) / 70368744177664, 1 / 2, 6⟩,
       ⟨(5120864181066933 : ℚ) / 140737488355328, 1 / 2,
        (-1074876604606873 : ℚ) / 70368744177664, 0, 6⟩,
       ⟨(-2149753209213747 : ℚ) / 140737488355328, 1 / 2,
        (-4710185299747213 : ℚ) / 70368744177664, 0, 6⟩] := by
    simp only [divide_map_tiles, tileGapW]
    rw [hdA, hhA, hm1A, hm2A, hdL, hhL, hm1L, hm2L]; norm_num
  have hdB : fsub ((5712216303727487 : ℚ) / 18014398509481984)
      ((7205759403792799 : ℚ) / 72057594037927936)
      = (3910776452779287 : ℚ) / 18014398509481984 := by
    norm_num [fsub, roundDouble, binade, roundHalfEven, Nat.log2, abs_of_pos, abs_of_neg,
      sup_of_le_left, Int.fract]
  have hhB : fdiv ((3910776452779287 : ℚ) / 18014398509481984) 2
      = (3910776452779287 : ℚ) / 36028797018963968 := by
    norm_num [fdiv, roundDouble, binade, roundHalfEven, Nat.log2, abs_of_pos, abs_of_neg,
      sup_of_le_left, Int.fract]
  have hm1B : fadd ((7205759403792799 : ℚ) / 72057594037927936)
      ((3910776452779287 : ℚ) / 36028797018963968)
      = (3756828077337843 : ℚ) / 18014398509481984 := by
    norm_num [fadd, roundDouble, binade, roundHalfEven, Nat.log2, abs_of_pos, abs_of_neg,
      sup_of_le_left, Int.fract]
  have hm2B : fsub ((5712216303727487 : ℚ) / 18014398509481984)
      ((3910776452779287 : ℚ) / 36028797018963968)
      = (7513656154675687 : ℚ) / 36028797018963968 := by
    norm_num [fsub, roundDouble, binade, roundHalfEven, Nat.log2, abs_of_pos, abs_of_neg,
      sup_of_le_left, Int.fract]
  have hlistB : divide_map_tiles tileOverlapW =
      [⟨(5712216303727487 : ℚ) / 18014398509481984, 1,
        (3756828077337843 : ℚ) / 18014398509481984, 1 / 2, 6⟩,
       ⟨(7513656154675687 : ℚ) / 36028797018963968, 1,
        (7205759403792799 : ℚ) / 72057594037927936, 1 / 2, 6⟩,
       ⟨(5712216303727487 : ℚ) / 18014398509481984, 1 / 2,
        (3756828077337843 : ℚ) / 18014398509481984, 0, 6⟩,
       ⟨(7513656154675687 : ℚ) / 36028797018963968, 1 / 2,
        (7205759403792799 : ℚ) / 72057594037927936, 0, 6⟩] := by
    simp only [divide_map_tiles, tileOverlapW]
    rw [hdB, hhB, hm1B, hm2B, hdL, hhL, hm1L, hm2L]; norm_num
  have hdC : fsub ((5008906024909889 : ℚ) / 140737488355328)
      ((1104856575469923 : ℚ) / 35184372088832) = (589479723030197 : ℚ) / 140737488355328 := by
    norm_num [fsub, roundDouble, binade, roundHalfEven, Nat.log2, abs_of_pos, abs_of_neg,
      sup_of_le_left, Int.fract]
  have hhC : fdiv ((589479723030197 : ℚ) / 140737488355328) 2
      = (589479723030197 : ℚ) / 281474976710656 := by
    norm_num [fdiv, roundDouble, binade, roundHalfEven, Nat.log2, abs_of_pos, abs_of_neg,
      sup_of_le_left, Int.fract]
  have hm1C : fadd ((1104856575469923 : ℚ) / 35184372088832)
      ((589479723030197 : ℚ) / 281474976710656) = (2357083081697395 : ℚ) / 70368744177664 := by
    norm_num [fadd, roundDouble, binade, roundHalfEven, Nat.log2, abs_of_pos, abs_of_neg,
      sup_of_le_left, Int.fract]
  have hm2C : fsub ((5008906024909889 : ℚ) / 140737488355328)
      ((589479723030197 : ℚ) / 281474976710656) = (2357083081697395 : ℚ) / 70368744177664 := by
    norm_num [fsub, roundDouble, binade, roundHalfEven, Nat.log2, abs_of_pos, abs_of_neg,
      sup_of_le_left, Int.fract]
  have hlistC : divide_map_tiles tileSpanW =
      [⟨(5008906024909889 : ℚ) / 140737488355328, 1,
        (2357083081697395 : ℚ) / 70368744177664, 1 / 2, 6⟩,
       ⟨(2357083081697395 : ℚ) / 70368744177664, 1,
        (1104856575469923 : ℚ) / 35184372088832, 1 / 2, 6⟩,
       ⟨(5008906024909889 : ℚ) / 140737488355328, 1 / 2,
        (2357083081697395 : ℚ) / 70368744177664, 0, 6⟩,
       ⟨(2357083081697395 : ℚ) / 70368744177664, 1 / 2,
        (1104856575469923 : ℚ) / 35184372088832, 0, 6⟩] := by
    simp only [divide_map_tiles, tileSpanW]
    rw [hdC, hhC, hm1C, hm2C, hdL, hhL, hm1L, hm2L]; norm_num
  refine ⟨⟨by norm_num [tileGapW], by norm_num [tileGapW],
      by norm_num [inTile, tileGapW], ?_⟩,
    ⟨by norm_num [tileOverlapW], by norm_num [tileOverlapW], ?_⟩,
    ⟨by norm_num [tileSpanW], by norm_num [tileSpanW], ?_⟩⟩
  · rw [hlistA]
    rintro ⟨t, ht, hin⟩
    simp only [List.mem_cons, List.not_mem_nil, or_false] at ht
    rcases ht with h | h | h | h <;> subst h <;> norm_num [inTile] at hin
  · rw [hlistB]
    refine ⟨⟨(5712216303727487 : ℚ) / 18014398509481984, 1,
        (3756828077337843 : ℚ) / 18014398509481984, 1 / 2, 6⟩, by simp,
      ⟨(7513656154675687 : ℚ) / 36028797018963968, 1,
        (7205759403792799 : ℚ) / 72057594037927936, 1 / 2, 6⟩, by simp, ?_, ?_, ?_⟩
    · intro h
      rw [MapTile.mk.injEq] at h
      norm_num at h
    · norm_num [strictlyInTile]
    · norm_num [strictlyInTile]
  · rw [hlistC]
    exact ⟨⟨(5008906024909889 : ℚ) / 140737488355328, 1,
        (2357083081697395 : ℚ) / 70368744177664, 1 / 2, 6⟩, by simp,
      by norm_num [tileSpanW]⟩

/-! ## `SessionHandler.makeRequest`: retry/backoff state machine -/

/-- The observable outcome of one HTTP attempt inside `makeRequest`: a
response with a status code and parsed body, or a raised request exception
(HTTPError, ConnectionError, Timeout or any other exception, all caught by
the handler chain). -/
inductive AttemptResult where
  | status (code : ℕ) (body : J) : AttemptResult
  | exn : AttemptResult

/-- How one attempt is handled by the `if/elif` chain of `makeRequest`:
429 sleeps the long cooldown then retries; 415 breaks out (no content);
405 and any other non-200 status retry; 200 returns the body; a raised
exception retries. -/
inductive StepKind where
  | success (body : J) : StepKind
  | term : StepKind
  | cooldown : StepKind
  | retry : StepKind

def classifyAttempt : AttemptResult → StepKind
  | .exn => .retry
  | .status code body =>
      if code = 429 then .cooldown
      else if code = 415 then .term
      else if code = 405 then .retry
      else if code ≠ 200 then .retry
      else .success body

/-- Trace of one `makeRequest` call: the returned value (`none` both for the
exhausted case and the 415 break), the sequence of sleep durations in
seconds, and the number of HTTP attempts actually made. -/
structure ReqTrace where
  result : Option J
  sleeps : List ℚ
  attempts : ℕ

/-- `SessionHandler.makeRequest`, as a function of the attempt outcomes:
`request_error_count` starts at 0; at 8 or more errors the call sleeps 3600 s
and returns `None`; otherwise it sleeps the backoff for the current count
(`60*count` from 4 up, `10*count` from 1 up), performs the attempt, and the
`finally` block adds the 0.28 s jitter sleep after every attempt.  A 429
additionally sleeps 1200 s before the jitter. -/
def makeRequest (outcomes : ℕ → AttemptResult) (count : ℕ) : ReqTrace :=
  if 8 ≤ count then ⟨none, [3600], 0⟩
  else
    let pre : List ℚ := if 4 ≤ count then [60 * (count : ℚ)]
      else if 0 < count then [10 * (count : ℚ)] else []
    match classifyAttempt (outcomes count) with
    | .success body => ⟨some body, pre ++ [0.28], 1⟩
    | .term => ⟨none, pre ++ [0.28], 1⟩
    | .cooldown =>
        let rest := makeRequest outcomes (count + 1)
        ⟨rest.result, pre ++ [1200, 0.28] ++ rest.sleeps, rest.attempts + 1⟩
    | .retry =>
        let rest := makeRequest outcomes (count + 1)
        ⟨rest.result, pre ++ [0.28] ++ rest.sleeps, rest.attempts + 1⟩
termination_by 8 - count
decreasing_by all_goals omega

/-- An attempt outcome that the claim calls retryable: HTTP 405, any other
status that is none of 200/429/415, or a raised transport exception. -/
def retryableOutcome : AttemptResult → Bool
  | .exn => true
  | .status code _ => code ≠ 200 && code ≠ 429 && code ≠ 415

theorem classifyAttempt_retryable (a : AttemptResult) (h : retryableOutcome a = true) :
    classifyAttempt a = .retry := by
  cases a with
  | exn => rfl
  | status code body =>
      simp only [retryableOutcome, Bool.and_eq_true, decide_eq_true_eq, bne_iff_ne] at h
      obtain ⟨⟨h200, h429⟩, h415⟩ := h
      by_cases h405 : code = 405 <;>
        simp [classifyAttempt, h200, h429, h415, h405]

theorem makeRequest_retry_step (outcomes : ℕ → AttemptResult) (count : ℕ)
    (hlt : count < 8) (hr : retryableOutcome (outcomes count) = true) :
    makeRequest outcomes count =
      ⟨(makeRequest outcomes (count + 1)).result,
       (if 4 ≤ count then [60 * (count : ℚ)] else if 0 < count then [10 * (count : ℚ)] else [])
         ++ [0.28] ++ (makeRequest outcomes (count + 1)).sleeps,
       (makeRequest outcomes (count + 1)).attempts + 1⟩ := by
  rw [makeRequest]
  rw [if_neg (by omega), classifyAttempt_retryable _ hr]

theorem makeRequest_exhausted_base (outcomes : ℕ → AttemptResult) :
    makeRequest outcomes 8 = ⟨none, [3600], 0⟩ := by
  rw [makeRequest, if_pos (by omega)]

/-- C2: when every attempt fails with a retryable outcome, `makeRequest`
makes exactly 8 attempts, sleeping 10*n seconds after attempts n = 1..3 and
60*n seconds after attempts n = 4..7 (each attempt also followed by the
0.28 s jitter), then sleeps 3600 s and returns `None` without raising. -/
theorem makeRequest_exhaustion (outcomes : ℕ → AttemptResult)
    (h : ∀ i, i < 8 → retryableOutcome (outcomes i) = true) :
    makeRequest outcomes 0 =
      ⟨none,
       [0.28, 10, 0.28, 20, 0.28, 30, 0.28, 240, 0.28, 300, 0.28, 360, 0.28, 420, 0.28, 3600],
       8⟩ := by
  have e0 := makeRequest_retry_step outcomes 0 (by omega) (h 0 (by omega))
  have e1 := makeRequest_retry_step outcomes 1 (by omega) (h 1 (by omega))
  have e2 := makeRequest_retry_step outcomes 2 (by omega) (h 2 (by omega))
  have e3 := makeRequest_retry_step outcomes 3 (by omega) (h 3 (by omega))
  have e4 := makeRequest_retry_step outcomes 4 (by omega) (h 4 (by omega))
  have e5 := makeRequest_retry_step outcomes 5 (by omega) (h 5 (by omega))
  have e6 := makeRequest_retry_step outcomes 6 (by omega) (h 6 (by omega))
  have e7 := makeRequest_retry_step outcomes 7 (by omega) (h 7 (by omega))
  have e8 := makeRequest_exhausted_base outcomes
  rw [e0, e1, e2, e3, e4, e5, e6, e7, e8]
  norm_num

theorem makeRequest_exhaustion_witness :
    (∀ i : ℕ, i < 8 → retryableOutcome ((fun _ => AttemptResult.status 500 J.null) i) = true)
    ∧ makeRequest (fun _ => AttemptResult.status 500 J.null) 0 =
      ⟨none,
       [0.28, 10, 0.28, 20, 0.28, 30, 0.28, 240, 0.28, 300, 0.28, 360, 0.28, 420, 0.28, 3600],
       8⟩ :=
  ⟨fun _ _ => rfl, makeRequest_exhaustion (fun _ => AttemptResult.status 500 J.null) (fun _ _ => rfl)⟩

/-! ## `SessionHandler.extractPricingToFile`: the price-ledger dedup rule -/

/-- One element of the `prices` list in a per-listing pricing file.  Dates
are modelled as integer day ordinals: `datetime.strptime` comparisons on
ISO dates are order-isomorphic to integer comparisons. -/
structure PriceEntry where
  start_date : ℤ
  end_date : ℤ
  week_label : String
  adults : ℤ
  structuredDisplayPrice : Option J

/-- A per-listing pricing JSON file (`listingid` plus the `prices` list;
the `currency`/`scrape_datetime` metadata does not influence the logic). -/
structure PricingFile where
  listingid : J
  prices : List PriceEntry

/-- The pricing-pass session parameters set by `_setup_scraper_context`. -/
structure PricingSession where
  check_in : ℤ
  check_out : ℤ
  week_label : String
  adults : ℤ

/-- `SessionHandler.extractPricingToFile`: build the new `pricing_dict`,
read the existing pricing file (initialising it when absent), return early
(no write) as soon as an existing entry with the same guest count has a
`start_date` greater than or equal to the new check-in, else append and
save.  The returned value is the file written, `none` when nothing is. -/
def extractPricingToFile (sess : PricingSession) (e : J) (listing_id : J)
    (existing : Option PricingFile) : Option PricingFile :=
  let pricing_dict : PriceEntry :=
    ⟨sess.check_in, sess.check_out, sess.week_label, sess.adults,
     dict_subset e [.s "structuredDisplayPrice"]⟩
  let existing_json : PricingFile :=
    match existing with
    | some f => f
    | none => ⟨listing_id, []⟩
  if existing_json.prices.any
      (fun p => decide (sess.check_in ≤ p.start_date) && decide (p.adults = sess.adults)) then
    none
  else
    some ⟨existing_json.listingid, existing_json.prices ++ [pricing_dict]⟩

/-- The prices already recorded in the (possibly absent) pricing file. -/
def pricesOf (listing_id : J) (existing : Option PricingFile) : List PriceEntry :=
  (match existing with
   | some f => f
   | none => (⟨listing_id, []⟩ : PricingFile)).prices

/-- Case analysis of `extractPricingToFile`: the blocked case returns `None`
exactly when a same-guest entry with a later-or-equal check-in exists, and
the written file is the old one with the new entry appended. -/
theorem extractPricingToFile_cases (sess : PricingSession) (e : J) (listing_id : J)
    (existing : Option PricingFile) :
    (extractPricingToFile sess e listing_id existing = none
        ↔ ∃ p ∈ pricesOf listing_id existing,
            sess.check_in ≤ p.start_date ∧ p.adults = sess.adults)
    ∧ (∀ f', extractPricingToFile sess e listing_id existing = some f' →
        f'.prices = pricesOf listing_id existing ++
          [⟨sess.check_in, sess.check_out, sess.week_label, sess.adults,
            dict_subset e [.s "structuredDisplayPrice"]⟩]
        ∧ ∀ p ∈ pricesOf listing_id existing,
            ¬ (sess.check_in ≤ p.start_date ∧ p.adults = sess.adults)) := by
  by_cases hc : (pricesOf listing_id existing).any
      (fun p => decide (sess.check_in ≤ p.start_date) && decide (p.adults = sess.adults)) = true
  · have hnone : extractPricingToFile sess e listing_id existing = none := by
      simp only [extractPricingToFile]
      rw [if_pos (by exact hc)]
    constructor
    · simp only [hnone, true_iff]
      rw [List.any_eq_true] at hc
      obtain ⟨p, hp, hpp⟩ := hc
      simp only [Bool.and_eq_true, decide_eq_true_eq] at hpp
      exact ⟨p, hp, hpp.1, hpp.2⟩
    · intro f' hf'
      rw [hnone] at hf'
      exact absurd hf' (by simp)
  · have hsome : extractPricingToFile sess e listing_id existing =
        some ⟨(match existing with
               | some f => f
               | none => (⟨listing_id, []⟩ : PricingFile)).listingid,
              pricesOf listing_id existing ++
                [⟨sess.check_in, sess.check_out, sess.week_label, sess.adults,
                  dict_subset e [.s "structuredDisplayPrice"]⟩]⟩ := by
      simp only [extractPricingToFile]
      rw [if_neg (by exact hc)]
      rfl
    have hall : ∀ p ∈ pricesOf listing_id existing,
        ¬ (sess.check_in ≤ p.start_date ∧ p.adults = sess.adults) := by
      intro p hp hand
      exact hc (List.any_eq_true.mpr ⟨p, hp, by
        simp only [Bool.and_eq_true, decide_eq_true_eq]
        exact hand⟩)
    constructor
    · constructor
      · intro h0
        rw [hsome] at h0
        exact absurd h0 (by simp)
      · rintro ⟨p, hp, h1, h2⟩
        exact absurd ⟨h1, h2⟩ (hall p hp)
    · intro f' hf'
      rw [hsome] at hf'
      injection hf' with hf'
      exact ⟨by rw [← hf'], hall⟩

/-- C5: `extractPricingToFile` appends the new entry if and only if no
already-recorded entry with the same guest count has a check-in date greater
than or equal to the new entry's check-in date; when such an entry exists it
returns without writing anything. -/
theorem extractPricingToFile_dedup (sess : PricingSession) (e : J) (listing_id : J)
    (existing : Option PricingFile) :
    (extractPricingToFile sess e listing_id existing = none
        ↔ ∃ p ∈ pricesOf listing_id existing,
            sess.check_in ≤ p.start_date ∧ p.adults = sess.adults)
    ∧ (∀ f', extractPricingToFile sess e listing_id existing = some f' →
        f'.prices = pricesOf listing_id existing ++
          [⟨sess.check_in, sess.check_out, sess.week_label, sess.adults,
            dict_subset e [.s "structuredDisplayPrice"]⟩]
        ∧ ∀ p ∈ pricesOf listing_id existing,
            ¬ (sess.check_in ≤ p.start_date ∧ p.adults = sess.adults)) :=
  extractPricingToFile_cases sess e listing_id existing

theorem extractPricingToFile_dedup_witness :
    extractPricingToFile ⟨7, 9, "weekday", 2⟩ J.null (J.str "111")
        (some ⟨J.str "111", [⟨9, 11, "weekend", 2, none⟩]⟩) = none :=
  (extractPricingToFile_dedup ⟨7, 9, "weekday", 2⟩ J.null (J.str "111")
      (some ⟨J.str "111", [⟨9, 11, "weekend", 2, none⟩]⟩)).1.mpr
    ⟨⟨9, 11, "weekend", 2, none⟩, by simp [pricesOf], by norm_num, rfl⟩

/-- C9 is false on the code: an offered entry whose check-in date is strictly
LATER than the latest recorded same-guest check-in date is accepted for
append, even though it is not strictly earlier. -/
theorem extractPricing_monotonicity_counterexample :
    extractPricingToFile ⟨7, 9, "weekday", 2⟩ J.null (J.str "111")
        (some ⟨J.str "111", [⟨5, 7, "weekday", 2, none⟩]⟩)
      = some ⟨J.str "111", [⟨5, 7, "weekday", 2, none⟩, ⟨7, 9, "weekday", 2, none⟩]⟩
    ∧ ¬ ((7 : ℤ) < 5) :=
  ⟨rfl, by norm_num⟩

/-- C9 (amended): for a fixed guest count, a price entry offered to the
ledger is accepted for append only if its check-in date is strictly later
than every (hence the latest) already-recorded check-in date for that pair. -/
theorem extractPricing_accept_strictly_later (sess : PricingSession) (e : J)
    (listing_id : J) (existing : Option PricingFile) (f' : PricingFile)
    (h : extractPricingToFile sess e listing_id existing = some f') :
    ∀ p ∈ pricesOf listing_id existing,
      p.adults = sess.adults → p.start_date < sess.check_in := by
  intro p hp had
  have := ((extractPricingToFile_cases sess e listing_id existing).2 f' h).2 p hp
  by_contra hle
  exact this ⟨by omega, had⟩

theorem extractPricing_accept_strictly_later_witness :
    extractPricingToFile ⟨7, 9, "weekday", 2⟩ J.null (J.str "111")
        (some ⟨J.str "111", [⟨5, 7, "weekday", 2, none⟩]⟩)
      = some ⟨J.str "111", [⟨5, 7, "weekday", 2, none⟩, ⟨7, 9, "weekday", 2, none⟩]⟩
    ∧ ∀ p ∈ pricesOf (J.str "111") (some ⟨J.str "111", [⟨5, 7, "weekday", 2, none⟩]⟩),
        p.adults = (2 : ℤ) → p.start_date < 7 :=
  ⟨rfl, extractPricing_accept_strictly_later ⟨7, 9, "weekday", 2⟩ J.null (J.str "111")
      (some ⟨J.str "111", [⟨5, 7, "weekday", 2, none⟩]⟩) _ rfl⟩

/-! ## Effects: writes and sub-fetches recorded by the embedded methods -/

/-- An observable side effect of the scraper logic: a JSON file written via
`file_mgr.saveJSONFile` (the storage collaborator; its insertion-timestamp
tagging is outside the embedded logic), a hand-off to the price ledger, the
property-detail fetch, or a sub-fetch dispatch. -/
inductive Effect where
  | saveFile (folder : String) (name : J) (data : J) : Effect
  | handToPricing (listing_id : J) (item : J) : Effect
  | fetchDetail (listing_id : J) : Effect
  | scrapeCalendar (listing_id : J) : Effect
  | scrapeDescription (listing_id : J) (translate : Bool) : Effect
  | scrapeReviews (listing_id : J) : Effect

/-! ## `WebScraper.getTotalCount` -/

/-- The key path used by the explore branch of `getTotalCount`. -/
def explorePathKeys : List PyKey :=
  [.s "data", .s "dora", .s "exploreV3", .s "metadata", .s "paginationMetadata", .s "totalCount"]

/-- The key path used by the stays/pricing branch of `getTotalCount`. -/
def staysTitleKeys : List PyKey :=
  [.s "data", .s "presentation", .s "staysSearch", .s "results", .s "sectionConfiguration",
   .s "pageTitleSections", .s "sections", .i 0, .s "sectionData", .s "structuredTitle"]

/-- Numeric value of a list of decimal digits. -/
def digitsToNat (cs : List Char) : ℕ :=
  cs.foldl (fun acc c => acc * 10 + (c.toNat - 48)) 0

/-- The leftmost match of the regex `(\d+,\d+|\d+)`: at the first digit
position, the greedy digit run, extended across one comma when another digit
run follows it directly. -/
def findCountToken : List Char → Option (List Char)
  | [] => none
  | c :: cs =>
      if c.isDigit then
        let p := (c :: cs).span (fun ch => ch.isDigit)
        match p.2 with
        | ',' :: r2 =>
            let q := r2.span (fun ch => ch.isDigit)
            if q.1.isEmpty then some p.1 else some (p.1 ++ ',' :: q.1)
        | _ => some p.1
      else findCountToken cs

/-- Python `int()` applied to a decimal string (whitespace-stripped, optional
sign, nonempty digit run; otherwise `ValueError`). -/
def pyIntOfChars (cs : List Char) : Except PyErr ℤ :=
  let t1 := cs.dropWhile (fun c => c = ' ')
  let t2 := (t1.reverse.dropWhile (fun c => c = ' ')).reverse
  match t2 with
  | '-' :: ds =>
      if ds ≠ [] ∧ ds.all (fun c => c.isDigit) then .ok (-(digitsToNat ds : ℤ))
      else .error .valueError
  | '+' :: ds =>
      if ds ≠ [] ∧ ds.all (fun c => c.isDigit) then .ok (digitsToNat ds : ℤ)
      else .error .valueError
  | ds =>
      if ds ≠ [] ∧ ds.all (fun c => c.isDigit) then .ok (digitsToNat ds : ℤ)
      else .error .valueError

/-- Python `int()` on a value that may be `None`: `TypeError` on `None` and
on non-numeric non-string values, string parse otherwise. -/
def pyInt : Option J → Except PyErr ℤ
  | none => .error .typeError
  | some (J.num n) => .ok n
  | some (J.bool b) => .ok (if b then 1 else 0)
  | some (J.str s) => pyIntOfChars s.toList
  | some J.null => .error .typeError
  | some (J.arr _) => .error .typeError
  | some (J.obj _) => .error .typeError

/-- `WebScraper.getTotalCount`.  Explore branch: `int(dict_subset(...))` —
`int(None)` raises `TypeError` when the count is absent.  Stays/pricing
branch: `None` becomes 0 with no debug save; a present title goes through
`re.search(r'(\d+,\d+|\d+)', ...)`; when the regex fails (or the title is not
a string) the `except` branch saves the response for diagnosis and the
following `return int(totalCount_RegexMatch)` then raises `NameError`
(unbound local).  Any other runner type raises `ValueError`. -/
def getTotalCount (runner_type : String) (response : J) : Except PyErr ℤ × List Effect :=
  if runner_type = "explore" then
    (pyInt (dict_subset response explorePathKeys), [])
  else if runner_type = "stays" ∨ runner_type = "pricing" then
    match dict_subset response staysTitleKeys with
    | none => (.ok 0, [])
    | some (J.str s) =>
        match findCountToken s.toList with
        | some tok => (.ok ((digitsToNat (tok.filter (fun c => c ≠ ','))) : ℤ), [])
        | none => (.error .nameError,
            [.saveFile "debug" (J.str "cannot_extract_total_listing_count.json") response])
    | some _ => (.error .nameError,
        [.saveFile "debug" (J.str "cannot_extract_total_listing_count.json") response])
  else (.error .valueError, [])

/-- A stays response whose declared title contains no digits. -/
def staysBadTitleResponse : J :=
  J.obj [("data", J.obj [("presentation", J.obj [("staysSearch", J.obj [("results",
    J.obj [("sectionConfiguration", J.obj [("pageTitleSections", J.obj [("sections",
      J.arr [J.obj [("sectionData", J.obj [("structuredTitle",
        J.str "Over many homes")])]])])])])])])])]

/-- A stays response declaring a formatted count of 1,234. -/
def staysGoodTitleResponse : J :=
  J.obj [("data", J.obj [("presentation", J.obj [("staysSearch", J.obj [("results",
    J.obj [("sectionConfiguration", J.obj [("pageTitleSections", J.obj [("sections",
      J.arr [J.obj [("sectionData", J.obj [("structuredTitle",
        J.str "1,234 homes in this area")])]])])])])])])])]

/-- C7 is false on the code (and the code contradicts its own docstring,
which promises `Returns 0 if no count can be found or parsed`): on an explore
response with no count, `getTotalCount` raises `TypeError` from `int(None)`
and saves nothing; on a stays response with no count it does return 0 but
saves nothing; on a stays response whose title cannot be parsed it saves the
diagnostic file but then raises `NameError`; only a parseable title yields
the count. -/
theorem getTotalCount_parse_failure_behaviour :
    getTotalCount "explore" (J.obj []) = (.error .typeError, [])
    ∧ getTotalCount "stays" (J.obj []) = (.ok 0, [])
    ∧ getTotalCount "stays" staysBadTitleResponse
        = (.error .nameError,
           [.saveFile "debug" (J.str "cannot_extract_total_listing_count.json")
              staysBadTitleResponse])
    ∧ getTotalCount "pricing" staysGoodTitleResponse = (.ok 1234, [])
    ∧ getTotalCount "explore" (J.obj [("data", J.obj [("dora", J.obj [("exploreV3",
        J.obj [("metadata", J.obj [("paginationMetadata", J.obj [("totalCount",
          J.num 251)])])])])])]) = (.ok 251, []) :=
  ⟨rfl, rfl, rfl, rfl, rfl⟩

/-! ## Listing-id decoding: `base64.b64decode(...).decode("utf-8")` and
`str.replace` -/

/-- 6-bit value of a base64 alphabet character. -/
def b64val (c : Char) : Option ℕ :=
  if 'A' ≤ c ∧ c ≤ 'Z' then some (c.toNat - 65)
  else if 'a' ≤ c ∧ c ≤ 'z' then some (c.toNat - 97 + 26)
  else if '0' ≤ c ∧ c ≤ '9' then some (c.toNat - 48 + 52)
  else if c = '+' then some 62
  else if c = '/' then some 63
  else none

/-- Decode 4-character base64 groups into bytes; padding (`=`) is legal only
at the tail of the final group; a trailing partial group is a padding
error. -/
def b64groups : List Char → Option (List ℕ)
  | [] => some []
  | a :: b :: c :: d :: rest =>
      match b64val a, b64val b with
      | some va, some vb =>
          if c = '=' then
            if d = '=' ∧ rest = [] then some [va * 4 + vb / 16] else none
          else
            match b64val c with
            | some vc =>
                if d = '=' then
                  if rest = [] then some [va * 4 + vb / 16, (vb % 16) * 16 + vc / 4] else none
                else
                  match b64val d with
                  | some vd =>
                      (b64groups rest).map
                        (fun bs => (va * 4 + vb / 16) :: ((vb % 16) * 16 + vc / 4)
                          :: ((vc % 4) * 64 + vd) :: bs)
                  | none => none
            | none => none
      | _, _ => none
  | _ => none

/-- `base64.b64decode` on a Python `str`: the string must be ASCII
(`s.encode('ascii')`); characters outside the alphabet and `=` are discarded
(default non-validating mode); the remainder must decode in groups of four
(`binascii.Error`, a `ValueError`, otherwise). -/
def b64decodePy (s : String) : Except PyErr (List ℕ) :=
  if s.toList.any (fun c => 128 ≤ c.toNat) then .error .unicodeError
  else
    match b64groups (s.toList.filter (fun c => (b64val c).isSome || c = '=')) with
    | some bytes => .ok bytes
    | none => .error .valueError

/-- Strict UTF-8 decoding of a byte list (`bytes.decode("utf-8")`), rejecting
truncated sequences, continuation errors, overlong forms, surrogates and
values beyond U+10FFFF. -/
def utf8Decode : List ℕ → Option (List Char)
  | [] => some []
  | b :: rest =>
      if b < 128 then (utf8Decode rest).map (fun cs => Char.ofNat b :: cs)
      else if 194 ≤ b ∧ b ≤ 223 then
        match rest with
        | b2 :: r2 =>
            if 128 ≤ b2 ∧ b2 ≤ 191 then
              (utf8Decode r2).map (fun cs => Char.ofNat ((b - 194 + 2) * 64 + (b2 - 128)) :: cs)
            else none
        | [] => none
      else if 224 ≤ b ∧ b ≤ 239 then
        match rest with
        | b2 :: b3 :: r3 =>
            if (if b = 224 then 160 else 128) ≤ b2 ∧ b2 ≤ (if b = 237 then 159 else 191)
                ∧ 128 ≤ b3 ∧ b3 ≤ 191 then
              (utf8Decode r3).map
                (fun cs => Char.ofNat ((b - 224) * 4096 + (b2 - 128) * 64 + (b3 - 128)) :: cs)
            else none
        | _ => none
      else if 240 ≤ b ∧ b ≤ 244 then
        match rest with
        | b2 :: b3 :: b4 :: r4 =>
            if (if b = 240 then 144 else 128) ≤ b2 ∧ b2 ≤ (if b = 244 then 143 else 191)
                ∧ 128 ≤ b3 ∧ b3 ≤ 191 ∧ 128 ≤ b4 ∧ b4 ≤ 191 then
              (utf8Decode r4).map
                (fun cs => Char.ofNat ((b - 240) * 262144 + (b2 - 128) * 4096
                  + (b3 - 128) * 64 + (b4 - 128)) :: cs)
            else none
        | _ => none
      else none

/-- Drop `pat` from the front of `s` when it is literally there. -/
def dropToken : List Char → List Char → Option (List Char)
  | [], s => some s
  | _ :: _, [] => none
  | p :: ps, c :: cs => if p = c then dropToken ps cs else none

theorem dropToken_length (pat : List Char) :
    ∀ s rest, dropToken pat s = some rest → rest.length + pat.length = s.length := by
  induction pat with
  | nil => intro s rest h; simp [dropToken] at h; simp [h]
  | cons p ps ih =>
      intro s rest h
      cases s with
      | nil => simp [dropToken] at h
      | cons c cs =>
          simp only [dropToken] at h
          by_cases hpc : p = c
          · rw [if_pos hpc] at h
            have := ih cs rest h
            simp [List.length_cons]
            omega
          · rw [if_neg hpc] at h
            exact absurd h (by simp)

/-- Structural worker for `replaceAllChars`; the fuel argument equals the
length of the scanned list, which `dropToken_length` shows is always enough
for a nonempty pattern. -/
def replaceAux : ℕ → List Char → List Char → List Char → List Char
  | 0, _, _, _ => []
  | _ + 1, [], _, _ => []
  | fuel + 1, c :: cs, pat, rep =>
      match dropToken pat (c :: cs) with
      | some rest =>
          if pat = [] then c :: replaceAux fuel cs pat rep
          else rep ++ replaceAux fuel rest pat rep
      | none => c :: replaceAux fuel cs pat rep

/-- Python `str.replace(old, new)` on character lists: non-overlapping,
left-to-right (as called here, `old` is the nonempty constant
`"DemandStayListing:"`). -/
def replaceAllChars (s pat rep : List Char) : List Char :=
  replaceAux s.length s pat rep

/-- The decode step of `_processListings` for the stays and pricing passes:
`base64.b64decode(dict_subset(e,'demandStayListing','id')).decode("utf-8")`
followed by `.replace("DemandStayListing:", "")`.  `b64decode(None)` (or of
any non-string) raises `TypeError`; all raised errors are caught by the bare
`except` at the call site. -/
def decodeListingId (v : Option J) : Except PyErr String :=
  match v with
  | some (J.str s) =>
      match b64decodePy s with
      | .error er => .error er
      | .ok bytes =>
          match utf8Decode bytes with
          | none => .error .unicodeError
          | some chars =>
              .ok (String.mk (replaceAllChars chars "DemandStayListing:".toList []))
  | some _ => .error .typeError
  | none => .error .typeError

theorem decodeListingId_sanity :
    decodeListingId (some (J.str "MTIz")) = .ok "123"
    ∧ decodeListingId (some (J.str "RGVtYW5kU3RheUxpc3Rpbmc6OTg3")) = .ok "987"
    ∧ decodeListingId none = .error .typeError :=
  ⟨rfl, rfl, rfl⟩

/-! ## `WebScraper._processListings`: per-item reconciliation -/

/-- `constants.DO_NOT_TRANSLATE`. -/
def DO_NOT_TRANSLATE : List String :=
  ["UK", "Singapore", "Thailand", "Vietnam", "Australia", "Ireland", "New Zealand",
   "Malaysia", "US", "Canada", "South Africa"]

/-- The configuration fields of the scrape context read by
`_processListings`. -/
structure ScrapeCtx where
  country : String
  isWebPreview : Bool
  scrapeCalendar : Bool
  scrapeDescription : Bool
  translateDescriptionToEnglish : Bool
  scrapeReviews : Bool

/-- The external collaborators consulted inside `_processListings`:
`file_mgr.readJSONFile('overview', id)` (with `J.null` for a missing file,
Python `None`) and the property-detail request (with `J.null` for an
exhausted `makeRequest`, Python `None`). -/
structure Oracles where
  readOverview : J → J
  detailResponse : J → J

/-- The two in-memory id trackers of the scraper. -/
structure ScrapeState where
  downloaded : List J
  updated : List J

/-- The outcome of handling one listing dict: effects in order, the updated
trackers, the value of the loop-carried `listing_id` local after the item,
and an uncaught exception if one was raised. -/
structure ItemStep where
  effects : List Effect
  state : ScrapeState
  lidVar : Option J
  err : Option PyErr

/-- `WebScraper._trackDownloaded`: append and return `True` when unseen,
return falsy otherwise. -/
def trackDownloaded (listing_id : J) (st : ScrapeState) : Bool × ScrapeState :=
  if st.downloaded.contains listing_id then (false, st)
  else (true, ⟨st.downloaded ++ [listing_id], st.updated⟩)

/-- `WebScraper._trackUpdated`: append and return `True` when not yet
updated this pass, return falsy (`None`) otherwise. -/
def trackUpdated (listing_id : J) (st : ScrapeState) : Bool × ScrapeState :=
  if st.updated.contains listing_id then (false, st)
  else (true, ⟨st.downloaded, st.updated ++ [listing_id]⟩)

/-- Python `{**a, **b}`: all of `a`'s keys (values overridden by `b` on
collision) followed by `b`'s new keys. -/
def pyMergeL (a b : List (String × J)) : List (String × J) :=
  a.map (fun p => (p.1, (lookupKvs b p.1).getD p.2)) ++
    b.filter (fun p => (lookupKvs a p.1).isNone)

/-- Python `{**a, **b}` on JSON values: both operands must be mappings. -/
def pyMerge (a b : J) : Except PyErr J :=
  match a, b with
  | J.obj ka, J.obj kb => .ok (J.obj (pyMergeL ka kb))
  | _, _ => .error .typeError

/-- Python `x.get(k)` (`AttributeError` on a non-dict receiver). -/
def pyGetOpt (e : J) (k : String) : Except PyErr (Option J) :=
  match e with
  | J.obj kvs => .ok (lookupKvs kvs k)
  | _ => .error .attributeError

/-- Substring test: `needle` occurs contiguously inside `hay`. -/
def containsToken (needle : List Char) : List Char → Bool
  | [] => needle.isEmpty
  | c :: cs => (dropToken needle (c :: cs)).isSome || containsToken needle cs

/-- Python `needle in hay` for a string needle: substring test on strings,
element test on lists, key test on dicts, `TypeError` otherwise. -/
def pyContains (needle : String) (hay : J) : Except PyErr Bool :=
  match hay with
  | J.str s => .ok (containsToken needle.toList s.toList)
  | J.arr xs => .ok (xs.contains (J.str needle))
  | J.obj kvs => .ok (kvs.any (fun p => p.1 = needle))
  | _ => .error .typeError

/-- The calendar/description/reviews sub-fetch dispatch at the bottom of
`_processListings`, gated on preview mode and the config flags. -/
def subFetches (ctx : ScrapeCtx) (st : ScrapeState) (listing_id : J) : List Effect :=
  if (ctx.isWebPreview ∧ st.downloaded.length ≤ 50) ∨ ¬ ctx.isWebPreview then
    (if ctx.scrapeCalendar then [Effect.scrapeCalendar listing_id] else []) ++
    (if ctx.scrapeDescription then
      [Effect.scrapeDescription listing_id false] ++
        (if ctx.translateDescriptionToEnglish ∧ ¬ DO_NOT_TRANSLATE.contains ctx.country then
          [Effect.scrapeDescription listing_id true] else [])
     else []) ++
    (if ctx.scrapeReviews then [Effect.scrapeReviews listing_id] else [])
  else []

/-- The universal tail of `_processListings`: the Singapore cross-country
address filter, the sub-fetch dispatch, and the final overview save. -/
def universalSection (ctx : ScrapeCtx) (st : ScrapeState) (listing_id : J) (e : J) : ItemStep :=
  let address := dict_subset e [.s "publicAddress"]
  if ctx.country = "Singapore" ∧ truthyO address then
    match pyContains ctx.country (address.getD J.null) with
    | .error er => ⟨[], st, some listing_id, some er⟩
    | .ok inAddr =>
        if ¬ inAddr then ⟨[], st, some listing_id, none⟩
        else ⟨subFetches ctx st listing_id ++ [Effect.saveFile "overview" listing_id e],
              st, some listing_id, none⟩
  else ⟨subFetches ctx st listing_id ++ [Effect.saveFile "overview" listing_id e],
        st, some listing_id, none⟩

/-- Case 2 tail of the stays branch after a successful detail fetch:
`t = dict_subset(response, 'data', 'presentation', 'stayProductDetailPage')`;
when `t` is truthy, has truthy `sections` and no error metadata, merge
`{**e, **t}`, save a debug copy and continue into the universal tail; else
save the error payload and skip the item.  A truthy non-dict `t` raises
`AttributeError` at `t.get('sections')`. -/
def staysDetailMerge (ctx : ScrapeCtx) (st : ScrapeState) (listing_id : J) (e : J)
    (t : Option J) : ItemStep :=
  match t with
  | some (J.obj kvs) =>
      if (J.obj kvs).truthy ∧ truthyO (lookupKvs kvs "sections")
          ∧ ¬ truthyO (dict_subset (J.obj kvs) [.s "sections", .s "metadata", .s "errorData"]) then
        match pyMerge e (J.obj kvs) with
        | .error er => ⟨[], st, some listing_id, some er⟩
        | .ok merged =>
            let u := universalSection ctx st listing_id merged
            ⟨Effect.saveFile "debug" listing_id merged :: u.effects, u.state, u.lidVar, u.err⟩
      else ⟨[Effect.saveFile "debug" (J.str "error_data.json") (J.obj kvs)],
            st, some listing_id, none⟩
  | some v =>
      if v.truthy then ⟨[], st, some listing_id, some .attributeError⟩
      else ⟨[Effect.saveFile "debug" (J.str "error_data.json") v], st, some listing_id, none⟩
  | none =>
      ⟨[Effect.saveFile "debug" (J.str "error_data.json") J.null], st, some listing_id, none⟩

/-- Case 2 of the stays branch: a listing not seen in the explore pass is
tracked, the Property Detail API is called, and the result merged. -/
def staysCase2 (ctx : ScrapeCtx) (orc : Oracles) (st : ScrapeState) (listing_id : J)
    (e : J) : ItemStep :=
  let rd := trackDownloaded listing_id st
  if rd.1 then
    let ru := trackUpdated listing_id rd.2
    if ru.1 then
      let t := dict_subset (orc.detailResponse listing_id)
        [.s "data", .s "presentation", .s "stayProductDetailPage"]
      let s := staysDetailMerge ctx ru.2 listing_id e t
      ⟨Effect.fetchDetail listing_id :: s.effects, s.state, s.lidVar, s.err⟩
    else ⟨[], ru.2, some listing_id, none⟩
  else ⟨[], rd.2, some listing_id, none⟩

/-- The stays branch of `_processListings`: case 1 augments an existing
explore record (`e = {**existing, **e}` saved to overview, marked updated, no
detail fetch) when the item is a `StaySearchResult`, is already downloaded
and not yet updated this pass; otherwise case 2 runs. -/
def staysBranch (ctx : ScrapeCtx) (orc : Oracles) (st : ScrapeState) (listing_id : J)
    (e : J) : ItemStep :=
  match pyGetOpt e "__typename" with
  | .error er => ⟨[], st, some listing_id, some er⟩
  | .ok tv =>
      let isStayResult := match tv with
        | some v => J.beq v (J.str "StaySearchResult")
        | none => false
      if isStayResult && st.downloaded.contains listing_id then
        let ru := trackUpdated listing_id st
        if ru.1 then
          match pyMerge (orc.readOverview listing_id) e with
          | .error er => ⟨[], ru.2, some listing_id, some er⟩
          | .ok merged =>
              ⟨[Effect.saveFile "overview" listing_id merged], ru.2, some listing_id, none⟩
        else staysCase2 ctx orc ru.2 listing_id e
      else staysCase2 ctx orc st listing_id e

/-- The explore branch of `_processListings`: skip when already downloaded,
else `e = e['listing']` and continue into the universal tail. -/
def exploreBranch (ctx : ScrapeCtx) (st : ScrapeState) (listing_id : J) (e : J) : ItemStep :=
  let rd := trackDownloaded listing_id st
  if ¬ rd.1 then ⟨[], rd.2, some listing_id, none⟩
  else
    match pyGetItemExc e (.s "listing") with
    | .error er => ⟨[], rd.2, some listing_id, some er⟩
    | .ok e2 => universalSection ctx rd.2 listing_id e2

/-- The pricing branch of `_processListings`:
`if self._trackUpdated(listing_id) or listing_id in self.downloaded_listingIDs`
hand the item to `extractPricingToFile`, then continue to the next item. -/
def pricingBranch (st : ScrapeState) (listing_id : J) (e : J) : ItemStep :=
  let ru := trackUpdated listing_id st
  if ru.1 || ru.2.downloaded.contains listing_id then
    ⟨[Effect.handToPricing listing_id e], ru.2, some listing_id, none⟩
  else ⟨[], ru.2, some listing_id, none⟩

/-- The common part of `_processListings` after the id-decoding section:
referencing an unbound `listing_id` raises `NameError`; a falsy id is logged
and skipped; otherwise the runner-specific branch runs.  (With an unknown
runner type the code falls through to the universal tail.) -/
def afterId (ctx : ScrapeCtx) (orc : Oracles) (runner_type : String) (lidVar : Option J)
    (st : ScrapeState) (e : J) (effs0 : List Effect) : ItemStep :=
  match lidVar with
  | none => ⟨effs0, st, none, some .nameError⟩
  | some lid =>
      if ¬ lid.truthy then
        ⟨effs0 ++ [Effect.saveFile "debug" (J.str "no_listing_ID") e], st, some lid, none⟩
      else
        let s : ItemStep :=
          if runner_type = "pricing" then pricingBranch st lid e
          else if runner_type = "explore" then exploreBranch ctx st lid e
          else if runner_type = "stays" then staysBranch ctx orc st lid e
          else universalSection ctx st lid e
        ⟨effs0 ++ s.effects, s.state, s.lidVar, s.err⟩

/-- One iteration of the `for e in listings` loop of `_processListings`.
For stays/pricing: drop split-stay items, then try to decode the listing id;
on failure the raw item is saved for diagnosis but — the `except` block has
no `continue` — control falls through with `listing_id` still holding its
value from the previous iteration (unbound on the first).  For explore the
id is read with `dict_subset(e, 'listing', 'id')`. -/
def processItem (ctx : ScrapeCtx) (orc : Oracles) (runner_type : String) (lidVar : Option J)
    (st : ScrapeState) (e : J) : ItemStep :=
  if runner_type = "stays" ∨ runner_type = "pricing" then
    if truthyO (dict_subset e [.s "splitStaysListings"])
        || (dict_subset e [.s "demandStayListing"]).isNone then
      ⟨[], st, lidVar, none⟩
    else
      match decodeListingId (dict_subset e [.s "demandStayListing", .s "id"]) with
      | .ok idStr => afterId ctx orc runner_type (some (J.str idStr)) st e []
      | .error _ => afterId ctx orc runner_type lidVar st e
          [Effect.saveFile "debug" (J.str "no_listing_ID_Decoded") e]
  else
    afterId ctx orc runner_type (some ((dict_subset e [.s "listing", .s "id"]).getD J.null)) st e []

/-- The `for e in listings` loop of `_processListings`, threading the
loop-carried `listing_id` local, the trackers and the accumulated effects;
an uncaught exception aborts the loop. -/
def processListings (ctx : ScrapeCtx) (orc : Oracles) (runner_type : String) :
    List J → Option J → ScrapeState → List Effect → List Effect × ScrapeState × Option PyErr
  | [], _, st, acc => (acc, st, none)
  | e :: rest, lidVar, st, acc =>
      let s := processItem ctx orc runner_type lidVar st e
      match s.err with
      | some er => (acc ++ s.effects, s.state, some er)
      | none => processListings ctx orc runner_type rest s.lidVar s.state (acc ++ s.effects)

/-- `_processListings` as called on one page: `listing_id` starts unbound and
no effects have happened yet. -/
def processListingsRun (ctx : ScrapeCtx) (orc : Oracles) (runner_type : String)
    (listings : List J) (st : ScrapeState) : List Effect × ScrapeState × Option PyErr :=
  processListings ctx orc runner_type listings none st []

theorem lookupKvs_append (x y : List (String × J)) (k : String) :
    lookupKvs (x ++ y) k =
      match lookupKvs x k with
      | some v => some v
      | none => lookupKvs y k := by
  induction x with
  | nil => simp [lookupKvs]
  | cons p ps ih =>
      by_cases h : p.1 = k
      · simp [lookupKvs, h]
      · simp [lookupKvs, h, ih]

theorem lookupKvs_mapMerge (a b : List (String × J)) (k : String) :
    lookupKvs (a.map (fun p => (p.1, (lookupKvs b p.1).getD p.2))) k =
      (lookupKvs a k).map (fun v => (lookupKvs b k).getD v) := by
  induction a with
  | nil => simp [lookupKvs]
  | cons p ps ih =>
      by_cases h : p.1 = k
      · simp [lookupKvs, h]
      · simp [lookupKvs, h, ih]

theorem lookupKvs_filterNew (a b : List (String × J)) (k : String)
    (ha : lookupKvs a k = none) :
    lookupKvs (b.filter (fun p => (lookupKvs a p.1).isNone)) k = lookupKvs b k := by
  induction b with
  | nil => simp
  | cons q qs ih =>
      by_cases h : q.1 = k
      · have : (lookupKvs a q.1).isNone = true := by rw [h, ha]; rfl
        rw [List.filter_cons_of_pos (by simpa using this)]
        simp [lookupKvs, h]
      · by_cases hf : (lookupKvs a q.1).isNone = true
        · rw [List.filter_cons_of_pos (by simpa using hf)]
          simp [lookupKvs, h, ih]
        · rw [List.filter_cons_of_neg (by simpa using hf)]
          simp [lookupKvs, h, ih]

/-- Lookup in `{**a, **b}`: `b`'s binding wins when present, else `a`'s. -/
theorem lookupKvs_pyMergeL (a b : List (String × J)) (k : String) :
    lookupKvs (pyMergeL a b) k =
      match lookupKvs b k with
      | some v => some v
      | none => lookupKvs a k := by
  rw [pyMergeL, lookupKvs_append, lookupKvs_mapMerge]
  cases ha : lookupKvs a k with
  | none =>
      rw [lookupKvs_filterNew a b k ha]
      cases hb : lookupKvs b k <;> simp
  | some v =>
      cases hb : lookupKvs b k with
      | some w => simp [hb]
      | none => simp [hb]

/-- C4: in the stays (Fallback) pass, an incoming `StaySearchResult` item
whose id is already downloaded and not yet updated this pass is merged as
`{**existing, **e}` and persisted to overview: the persisted record's keys
are the union of both key sets, every field present only in the existing
Discovery record is retained unchanged, and on key collision the new item's
value wins.  No detail fetch and no other effect occurs, and the id is
marked updated. -/
theorem staysMerge_union_spec
    (ctx : ScrapeCtx) (orc : Oracles) (st : ScrapeState) (lidVar : Option J)
    (e : J) (ekvs exKvs : List (String × J)) (idStr : String)
    (he : e = J.obj ekvs)
    (hsplit : truthyO (dict_subset e [.s "splitStaysListings"]) = false)
    (hdemand : (dict_subset e [.s "demandStayListing"]).isNone = false)
    (hdec : decodeListingId (dict_subset e [.s "demandStayListing", .s "id"]) = .ok idStr)
    (hne : idStr ≠ "")
    (htype : lookupKvs ekvs "__typename" = some (J.str "StaySearchResult"))
    (hdl : st.downloaded.contains (J.str idStr) = true)
    (hup : st.updated.contains (J.str idStr) = false)
    (hex : orc.readOverview (J.str idStr) = J.obj exKvs) :
    processItem ctx orc "stays" lidVar st e =
      ⟨[Effect.saveFile "overview" (J.str idStr) (J.obj (pyMergeL exKvs ekvs))],
       ⟨st.downloaded, st.updated ++ [J.str idStr]⟩, some (J.str idStr), none⟩
    ∧ (∀ k v, lookupKvs ekvs k = some v → lookupKvs (pyMergeL exKvs ekvs) k = some v)
    ∧ (∀ k v, lookupKvs ekvs k = none → lookupKvs exKvs k = some v →
        lookupKvs (pyMergeL exKvs ekvs) k = some v)
    ∧ (∀ k, (lookupKvs (pyMergeL exKvs ekvs) k).isSome
        = ((lookupKvs exKvs k).isSome || (lookupKvs ekvs k).isSome)) := by
  subst he
  refine ⟨?_, ?_, ?_, ?_⟩
  · simp only [processItem]
    rw [if_pos (Or.inl trivial)]
    rw [if_neg (by rw [hsplit, hdemand]; simp)]
    rw [hdec]
    simp only [afterId]
    rw [if_neg (by simp [J.truthy, hne])]
    rw [if_neg (by simp), if_neg (by simp)]
    simp only [if_true]
    simp only [staysBranch, pyGetOpt, htype]
    rw [if_pos (by rw [hdl, Bool.and_true]; rfl)]
    simp only [trackUpdated, hup, Bool.false_eq_true, if_false]
    simp only [eq_self_iff_true, if_true]
    rw [hex]
    simp only [pyMerge]
    simp
  · intro k v h
    rw [lookupKvs_pyMergeL, h]
  · intro k v h1 h2
    rw [lookupKvs_pyMergeL, h1]
    exact h2
  · intro k
    rw [lookupKvs_pyMergeL]
    cases hb : lookupKvs ekvs k <;> cases hx : lookupKvs exKvs k <;> simp

theorem pricingBranch_no_overview (st : ScrapeState) (lid e : J) (name data : J) :
    Effect.saveFile "overview" name data ∉ (pricingBranch st lid e).effects := by
  simp only [pricingBranch]
  split <;> simp

theorem afterId_pricing_no_overview (ctx : ScrapeCtx) (orc : Oracles) (lidVar : Option J)
    (st : ScrapeState) (e : J) (effs0 : List Effect) (name data : J)
    (h0 : Effect.saveFile "overview" name data ∉ effs0) :
    Effect.saveFile "overview" name data ∉ (afterId ctx orc "pricing" lidVar st e effs0).effects := by
  cases lidVar with
  | none => simp only [afterId]; simpa using h0
  | some lid =>
      simp only [afterId]
      by_cases ht : lid.truthy = true
      · rw [if_neg (by simp [ht])]
        simp only [if_true, eq_self_iff_true]
        intro hmem
        rcases List.mem_append.mp hmem with h | h
        · exact h0 h
        · exact pricingBranch_no_overview st lid e name data h
      · rw [if_pos ht]
        intro hmem
        rcases List.mem_append.mp hmem with h | h
        · exact h0 h
        · simp at h

theorem processItem_pricing_no_overview (ctx : ScrapeCtx) (orc : Oracles) (lidVar : Option J)
    (st : ScrapeState) (e : J) (name data : J) :
    Effect.saveFile "overview" name data ∉ (processItem ctx orc "pricing" lidVar st e).effects := by
  simp only [processItem]
  rw [if_pos (Or.inr trivial)]
  split
  · simp
  · split
    · exact afterId_pricing_no_overview ctx orc _ st e [] name data (by simp)
    · exact afterId_pricing_no_overview ctx orc lidVar st e _ name data (by simp)

theorem processListings_pricing_no_overview (ctx : ScrapeCtx) (orc : Oracles)
    (listings : List J) :
    ∀ (lidVar : Option J) (st : ScrapeState) (acc : List Effect) (name data : J),
      Effect.saveFile "overview" name data ∉ acc →
      Effect.saveFile "overview" name data
        ∉ (processListings ctx orc "pricing" listings lidVar st acc).1 := by
  induction listings with
  | nil => intro lidVar st acc name data hacc; simpa [processListings] using hacc
  | cons e rest ih =>
      intro lidVar st acc name data hacc
      simp only [processListings]
      cases herr : (processItem ctx orc "pricing" lidVar st e).err with
      | some er =>
          intro hmem
          rcases List.mem_append.mp hmem with h | h
          · exact hacc h
          · exact processItem_pricing_no_overview ctx orc lidVar st e name data h
      | none =>
          apply ih
          intro hmem
          rcases List.mem_append.mp hmem with h | h
          · exact hacc h
          · exact processItem_pricing_no_overview ctx orc lidVar st e name data h

/-- C6 (amended): in the pricing pass an item with a decodable, truthy id is
handed to the price ledger if and only if its id either had NOT yet been
marked updated this pass (the `_trackUpdated` call marks it and returns
`True`) or is in the downloaded (discovered) set; and the pricing pass never
writes an overview record (never creates a new EntityRecord). -/
theorem pricing_pass_ledger_guard
    (ctx : ScrapeCtx) (orc : Oracles) (st : ScrapeState) (lidVar : Option J)
    (e : J) (idStr : String)
    (hsplit : truthyO (dict_subset e [.s "splitStaysListings"]) = false)
    (hdemand : (dict_subset e [.s "demandStayListing"]).isNone = false)
    (hdec : decodeListingId (dict_subset e [.s "demandStayListing", .s "id"]) = .ok idStr)
    (hne : idStr ≠ "") :
    (Effect.handToPricing (J.str idStr) e ∈ (processItem ctx orc "pricing" lidVar st e).effects
        ↔ (st.updated.contains (J.str idStr) = false
            ∨ st.downloaded.contains (J.str idStr) = true))
    ∧ (∀ (listings : List J) (st2 : ScrapeState) (name data : J),
        Effect.saveFile "overview" name data
          ∉ (processListingsRun ctx orc "pricing" listings st2).1) := by
  constructor
  · simp only [processItem]
    rw [if_pos (Or.inr trivial)]
    rw [if_neg (by rw [hsplit, hdemand]; simp)]
    rw [hdec]
    simp only [afterId]
    rw [if_neg (by simp [J.truthy, hne])]
    simp only [if_true, eq_self_iff_true, List.nil_append, pricingBranch, trackUpdated]
    by_cases hupd : st.updated.contains (J.str idStr) = true <;>
      by_cases hdl2 : st.downloaded.contains (J.str idStr) = true <;>
      simp [hupd, hdl2]
  · intro listings st2 name data
    exact processListings_pricing_no_overview ctx orc listings none st2 [] name data (by simp)

/-! Concrete inputs shared by the witnesses and counterexamples below. -/

/-- A context with a non-Singapore country and all sub-fetches disabled. -/
def webCtxW : ScrapeCtx := ⟨"France", false, false, false, false, false⟩

/-- Oracles: one stored overview record, detail requests exhausted. -/
def webOrcW : Oracles := ⟨fun _ => J.obj [("name", J.str "Old"), ("price", J.num 10)], fun _ => J.null⟩

/-- A stays item for listing 123 (id `MTIz` = base64 of `123`) carrying a
colliding `price` field. -/
def ekvsW : List (String × J) :=
  [("__typename", J.str "StaySearchResult"),
   ("demandStayListing", J.obj [("id", J.str "MTIz")]),
   ("price", J.num 20)]

/-- The existing overview record for listing 123. -/
def exKvsW : List (String × J) := [("name", J.str "Old"), ("price", J.num 10)]

/-- Trackers with listing 123 downloaded and nothing updated yet. -/
def mergeStateW : ScrapeState := ⟨[J.str "123"], []⟩

/-- A pricing item for listing 123. -/
def pricingItemW : J := J.obj [("demandStayListing", J.obj [("id", J.str "MTIz")])]

/-- A pricing/stays item whose `demandStayListing` has no `id`, so the id
decode raises and the `except` branch runs. -/
def badItemW : J := J.obj [("demandStayListing", J.obj [("x", J.num 1)])]

theorem staysMerge_union_spec_witness :
    mergeStateW.downloaded.contains (J.str "123") = true
    ∧ mergeStateW.updated.contains (J.str "123") = false
    ∧ decodeListingId (dict_subset (J.obj ekvsW) [.s "demandStayListing", .s "id"])
        = .ok "123"
    ∧ (processItem webCtxW webOrcW "stays" none mergeStateW (J.obj ekvsW) =
        ⟨[Effect.saveFile "overview" (J.str "123") (J.obj (pyMergeL exKvsW ekvsW))],
         ⟨mergeStateW.downloaded, mergeStateW.updated ++ [J.str "123"]⟩,
         some (J.str "123"), none⟩
      ∧ (∀ k v, lookupKvs ekvsW k = some v → lookupKvs (pyMergeL exKvsW ekvsW) k = some v)
      ∧ (∀ k v, lookupKvs ekvsW k = none → lookupKvs exKvsW k = some v →
          lookupKvs (pyMergeL exKvsW ekvsW) k = some v)
      ∧ (∀ k, (lookupKvs (pyMergeL exKvsW ekvsW) k).isSome
          = ((lookupKvs exKvsW k).isSome || (lookupKvs ekvsW k).isSome))) :=
  ⟨rfl, rfl, rfl,
   staysMerge_union_spec webCtxW webOrcW mergeStateW none (J.obj ekvsW) ekvsW exKvsW "123"
     rfl rfl rfl rfl (by decide) rfl rfl rfl rfl⟩

/-- C6 as stated is false on the code: with empty trackers (id neither in
the discovered set nor updated this pass), a first-seen pricing item is
nevertheless handed to the price ledger, because `_trackUpdated` returns
`True` precisely when the id was NOT yet updated. -/
theorem pricing_pass_guard_counterexample :
    Effect.handToPricing (J.str "123") pricingItemW
        ∈ (processItem webCtxW webOrcW "pricing" none (⟨[], []⟩ : ScrapeState) pricingItemW).effects
    ∧ (⟨[], []⟩ : ScrapeState).downloaded.contains (J.str "123") = false
    ∧ (⟨[], []⟩ : ScrapeState).updated.contains (J.str "123") = false :=
  ⟨by
    rw [show (processItem webCtxW webOrcW "pricing" none (⟨[], []⟩ : ScrapeState)
        pricingItemW).effects = [Effect.handToPricing (J.str "123") pricingItemW] from rfl]
    exact List.mem_singleton_self _,
   rfl, rfl⟩

theorem pricing_pass_ledger_guard_witness :
    Effect.handToPricing (J.str "123") pricingItemW
      ∈ (processItem webCtxW webOrcW "pricing" none mergeStateW pricingItemW).effects :=
  (pricing_pass_ledger_guard webCtxW webOrcW mergeStateW none pricingItemW "123"
      rfl rfl rfl (by decide)).1.mpr (Or.inr rfl)

/-- C8 is false on the code, which contradicts its own fail-safe intent: the
`except` branch that handles an undecodable listing id saves the raw item but
has no `continue`, so control falls through to the id check with
`listing_id` still bound to the PREVIOUS item's id — the broken item is
processed (here: handed to the price ledger) under the stale id 123.  When
the very first item of the page is broken, `listing_id` is unbound and the
pass dies with `NameError`. -/
theorem processListings_stale_id_attribution :
    processListingsRun webCtxW webOrcW "pricing" [pricingItemW, badItemW] mergeStateW
      = ([Effect.handToPricing (J.str "123") pricingItemW,
          Effect.saveFile "debug" (J.str "no_listing_ID_Decoded") badItemW,
          Effect.handToPricing (J.str "123") badItemW],
         ⟨[J.str "123"], [J.str "123"]⟩, none)
    ∧ processListingsRun webCtxW webOrcW "pricing" [badItemW] mergeStateW
      = ([Effect.saveFile "debug" (J.str "no_listing_ID_Decoded") badItemW],
         ⟨[J.str "123"], []⟩, some .nameError) :=
  ⟨rfl, rfl⟩
